import Mathlib

/-!
Verification development for the managed-root relocation engine of the
DevEnv_OneClick_Installer repository (`src/core/config.py`,
`src/core/system_config.py`, `src/core/env_manager.py`,
`src/core/history.py`).

The Python code is shallowly embedded: paths are strings over the Windows
separator, the filesystem is a finite tree of named entries, the user
environment (Windows registry `HKCU\Environment`) is an association list,
and the installation-history ledger is a list of records.  Each embedded
function carries a doc comment naming the Python function it translates.
-/

namespace DevEnvRoot

/-! ## Path strings

The code manipulates Windows path strings through `os.path.normpath`,
`os.path.join`, `os.path.relpath`, `os.path.dirname`, `str.startswith`
and `str.split(";")`.  We model a path as a `String` over the separator
`'\'` and the component view as the list of non-empty chunks between
separators.  `normpath` is modelled component-wise (drop empty and `"."`
components, resolve `".."`), which agrees with `os.path.normpath` on the
separator-normalised absolute paths the relocation engine handles. -/

def sepStr : String := "\\"

/-- Split a character list at every occurrence of `sep` (the chunks do not
contain `sep`; model of Python `str.split`). -/
def splitChar (sep : Char) : List Char → List (List Char)
  | [] => [[]]
  | c :: cs =>
    if c = sep then [] :: splitChar sep cs
    else
      match splitChar sep cs with
      | [] => [[c]]
      | chunk :: rest => (c :: chunk) :: rest

/-- Join character-list pieces with a separator character (model of Python
`sep.join`). -/
def joinChar (sep : Char) : List (List Char) → List Char
  | [] => []
  | [p] => p
  | p :: rest => p ++ sep :: joinChar sep rest

/-- `pre` is an initial segment of `s` (model of Python `str.startswith`,
character-exact). -/
def isPreChars : List Char → List Char → Bool
  | [], _ => true
  | _ :: _, [] => false
  | a :: as, b :: bs => if a = b then isPreChars as bs else false

/-- Model of `str.startswith` on strings. -/
def strStartsWith (s pre : String) : Bool := isPreChars pre.data s.data

/-- Model of `str.endswith` on strings. -/
def strEndsWith (s suf : String) : Bool :=
  isPreChars suf.data.reverse s.data.reverse

/-- Model of Python `str.strip()` (drop leading and trailing whitespace). -/
def strTrim (s : String) : String :=
  ⟨((s.data.dropWhile Char.isWhitespace).reverse.dropWhile
      Char.isWhitespace).reverse⟩

/-- Model of Python `str.lower()` for the ASCII range (paths compared by
`add_to_path` / `remove_from_path`). -/
def lowChar (c : Char) : Char :=
  if 65 ≤ c.toNat ∧ c.toNat ≤ 90 then Char.ofNat (c.toNat + 32) else c

def strLower (s : String) : String := ⟨s.data.map lowChar⟩

/-- Join strings with a separator character (`sep.join` in Python). -/
def joinWith (sep : Char) (pieces : List String) : String :=
  ⟨joinChar sep (pieces.map (fun p => p.data))⟩

/-- Components of a path string: non-empty chunks between `'\'` separators. -/
def splitPath (s : String) : List String :=
  ((splitChar '\\' s.data).map (fun cs => (⟨cs⟩ : String))).filter
    (fun t => t ≠ "")

/-- Resolve `"."` and `".."` components, as `os.path.normpath` does. -/
def resolveDots (cs : List String) : List String :=
  cs.foldl
    (fun acc c =>
      if c = "." then acc
      else if c = ".." then
        if acc ≠ [] ∧ acc.getLast? ≠ some ".." then acc.dropLast else acc ++ [c]
      else acc ++ [c])
    []

/-- Normal-form components of a path string. -/
def normComps (s : String) : List String := resolveDots (splitPath s)

/-- Model of `os.path.normpath` (component-wise; `""` normalises to `"."`). -/
def normpath (s : String) : String :=
  let cs := normComps s
  if cs = [] then "." else joinWith '\\' cs

/-- Model of `os.path.join a b` for a relative second argument. -/
def joinPath (a b : String) : String :=
  if a = "" then b
  else if strEndsWith a sepStr then a ++ b
  else a ++ sepStr ++ b

/-- Model of `os.path.dirname`: drop the last component. -/
def dirname (s : String) : String :=
  joinWith '\\' (splitPath s).dropLast

/-- Length of the longest common component run of two component lists. -/
def commonLen : List String → List String → Nat
  | a :: as, b :: bs => if a = b then commonLen as bs + 1 else 0
  | _, _ => 0

/-- Model of `os.path.relpath target base`.  `none` models the `ValueError`
raised when the two paths are on different drives (distinct first
components). -/
def relpath (target base : String) : Option String :=
  let t := normComps target
  let b := normComps base
  if t.head? ≠ b.head? then none
  else
    let k := commonLen t b
    let res := List.replicate (b.length - k) ".." ++ t.drop k
    some (if res = [] then "." else joinWith '\\' res)

/-- Boolean component-list containment: `compsPre p q` iff `p` is an
initial segment of `q`. -/
def compsPre : List String → List String → Bool
  | [], _ => true
  | _ :: _, [] => false
  | a :: as, b :: bs => if a = b then compsPre as bs else false

/-- `v` is equal to or nested under `p` in the path-containment sense
(component-wise, after normalisation).  This is the reading of the spec's
"equal to or nested under"; the code instead tests a *string* `startswith`. -/
def isNestedUnder (v p : String) : Bool :=
  compsPre (normComps p) (normComps v)

/-! ## Filesystem model

A finite tree of named entries.  A file carries two behavioural flags
modelling the two failure channels the migration code reacts to:
`locked` — the file is open in another process, so `os.remove` raises
`PermissionError`; `unreadable` — reading the file fails, so
`shutil.copy2` / `shutil.copytree` raise.  `content` is an opaque tag
used to recognise copies of a file. -/

inductive FsNode where
  | file (locked : Bool) (unreadable : Bool) (content : Nat) : FsNode
  | dir (entries : List (String × FsNode)) : FsNode

abbrev Comps := List String

/-- Look up a named entry of a directory listing. -/
def lookupE : List (String × FsNode) → String → Option FsNode
  | [], _ => none
  | (y, c) :: rest, x => if y = x then some c else lookupE rest x

/-- Replace a named entry in place, or append it if absent. -/
def insertE : List (String × FsNode) → String → FsNode → List (String × FsNode)
  | [], x, n => [(x, n)]
  | (y, c) :: rest, x, n =>
    if y = x then (x, n) :: rest else (y, c) :: insertE rest x n

/-- Remove a named entry. -/
def eraseE : List (String × FsNode) → String → List (String × FsNode)
  | [], _ => []
  | (y, c) :: rest, x => if y = x then rest else (y, c) :: eraseE rest x

/-- Node at a path, if any (`os.path.exists` is `(getNode fs p).isSome`). -/
def getNode : FsNode → Comps → Option FsNode
  | n, [] => some n
  | .file _ _ _, _ :: _ => none
  | .dir es, x :: xs =>
    match lookupE es x with
    | none => none
    | some c => getNode c xs

/-- Write a node at a path, creating missing intermediate directories
(as `os.makedirs` / copy destinations do). -/
def setNode : FsNode → Comps → FsNode → FsNode
  | _, [], m => m
  | .file _ _ _, x :: xs, m => .dir [(x, setNode (.dir []) xs m)]
  | .dir es, x :: xs, m =>
    .dir (insertE es x (setNode ((lookupE es x).getD (.dir [])) xs m))

/-- Delete the entry at a path (no-op if absent or if the path is empty). -/
def removeNode : FsNode → Comps → FsNode
  | n, [] => n
  | .file l u c, _ :: _ => .file l u c
  | .dir es, [x] => .dir (eraseE es x)
  | .dir es, x :: xs =>
    match lookupE es x with
    | none => .dir es
    | some c => .dir (insertE es x (removeNode c xs))

/-- Names of the immediate children at a path (`os.listdir`; `[]` when the
path is missing or a file). -/
def listdirFs (fs : FsNode) (p : Comps) : List String :=
  match getNode fs p with
  | some (.dir es) => es.map (fun e => e.1)
  | _ => []

/-- `os.path.isdir`. -/
def isdirFs (fs : FsNode) (p : Comps) : Bool :=
  match getNode fs p with
  | some (.dir _) => true
  | _ => false

/-- `os.path.exists`. -/
def existsFs (fs : FsNode) (p : Comps) : Bool :=
  (getNode fs p).isSome

mutual
/-- The tree `shutil.copytree` produces at the destination: directory
structure is preserved, readable files are copied (a fresh copy is neither
locked nor unreadable), unreadable files are skipped (their errors are
collected and re-raised at the end of `copytree`). -/
def copyTree : FsNode → FsNode
  | .file _ u c => .file false u c
  | .dir es => .dir (copyTreeEntries es)

def copyTreeEntries : List (String × FsNode) → List (String × FsNode)
  | [] => []
  | (_, .file _ true _) :: rest => copyTreeEntries rest
  | (n, c) :: rest => (n, copyTree c) :: copyTreeEntries rest
end

mutual
/-- Does the subtree contain an unreadable file?  When true,
`shutil.copytree` raises `shutil.Error` after copying what it can. -/
def hasUnreadable : FsNode → Bool
  | .file _ u _ => u
  | .dir es => hasUnreadableEntries es

def hasUnreadableEntries : List (String × FsNode) → Bool
  | [] => false
  | (_, c) :: rest => hasUnreadable c || hasUnreadableEntries rest
end

mutual
/-- Net effect on one node of a best-effort recursive delete that skips
entries it cannot remove (`shutil.rmtree` with `ignore_errors=True` or an
error handler that swallows failures): everything except locked files and
the directories still containing them disappears.  `none` means the node is
fully removed. -/
def reapNode : FsNode → Option FsNode
  | .file l u c => if l then some (.file l u c) else none
  | .dir es =>
    match reapEntries es with
    | [] => none
    | es' => some (.dir es')

def reapEntries : List (String × FsNode) → List (String × FsNode)
  | [] => []
  | (n, c) :: rest =>
    match reapNode c with
    | none => reapEntries rest
    | some c' => (n, c') :: reapEntries rest
end

mutual
/-- `shutil.rmtree` without error handling: entries are deleted in listing
order; the first locked file aborts the walk, leaving later entries in
place.  Returns the remaining node (`none` if fully removed) and whether
the call completed without raising. -/
def rmtreeStrict : FsNode → Option FsNode × Bool
  | .file l u c => if l then (some (.file l u c), false) else (none, true)
  | .dir es =>
    match rmtreeStrictEntries es with
    | ([], true) => (none, true)
    | (es', ok) => (some (.dir es'), ok)

def rmtreeStrictEntries : List (String × FsNode) → List (String × FsNode) × Bool
  | [] => ([], true)
  | (n, c) :: rest =>
    match rmtreeStrict c with
    | (none, true) => rmtreeStrictEntries rest
    | (rem, _) =>
      (((match rem with | none => [] | some r => [(n, r)]) ++ rest), false)
end

mutual
/-- No locked file anywhere in the subtree (so a reap removes it fully). -/
def noLocked : FsNode → Bool
  | .file l _ _ => !l
  | .dir es => noLockedEntries es

def noLockedEntries : List (String × FsNode) → Bool
  | [] => true
  | (_, c) :: rest => noLocked c && noLockedEntries rest
end

/-! ## Environment store (`src/core/system_config.py`)

The Windows user registry key `HKCU\Environment` is modelled as an
association list from variable names to values.  Registry reads of a
missing value raise `FileNotFoundError`, which the code converts to
`None`; in the model a missing key is simply an absent entry.  Registry
writes succeed (the model does not simulate a broken registry, in which
case every `SystemConfig` method swallows the exception itself anyway).
The `WM_SETTINGCHANGE` broadcast has no observable effect on this state
and is not modelled. -/

abbrev EnvSt := List (String × String)

def lookupEnv : EnvSt → String → Option String
  | [], _ => none
  | (y, v) :: rest, x => if y = x then some v else lookupEnv rest x

def setEnvVal : EnvSt → String → String → EnvSt
  | [], x, v => [(x, v)]
  | (y, w) :: rest, x, v =>
    if y = x then (x, v) :: rest else (y, w) :: setEnvVal rest x v

def eraseEnv : EnvSt → String → EnvSt
  | [], _ => []
  | (y, w) :: rest, x => if y = x then rest else (y, w) :: eraseEnv rest x

/-- `SystemConfig.get_env_variable` (lines 12-22): a read of a variable
that does not exist hits `FileNotFoundError` and returns `None`. -/
def getEnvVariable (env : EnvSt) (name : String) : Option String :=
  lookupEnv env name

/-- `SystemConfig.set_env_variable` (lines 24-34): writes the value and
returns `True` (the registry write succeeds in the model). -/
def setEnvVariable (env : EnvSt) (name value : String) : EnvSt × Bool :=
  (setEnvVal env name value, true)

/-- `SystemConfig.remove_env_variable` (lines 97-110): `DeleteValue` on a
missing name raises `FileNotFoundError`, which is caught and reported as
success with the store untouched. -/
def removeEnvVariable (env : EnvSt) (name : String) : EnvSt × Bool :=
  match lookupEnv env name with
  | none => (env, true)
  | some _ => (eraseEnv env name, true)

/-- `[p.strip() for p in value.split(";") if p.strip()]` — the entry view
of a search-path variable used by `add_to_path`, `remove_from_path` and
`ConfigManager._update_path_in_path_var`. -/
def parseSemiPaths (s : String) : List String :=
  ((splitChar ';' s.data).map (fun cs => strTrim ⟨cs⟩)).filter (fun t => t ≠ "")

/-- The list-level body of `SystemConfig.add_to_path` (lines 46-55):
drop every entry equal case-insensitively to the new path, then insert the
new path at the front (`prepend=True`) or at the back. -/
def addToPathList (paths : List String) (newPath : String) (prepend : Bool) :
    List String :=
  let remaining := paths.filter (fun p => strLower p ≠ strLower newPath)
  if prepend then newPath :: remaining else remaining ++ [newPath]

/-- `SystemConfig.add_to_path` (lines 36-73): normalise the path, rebuild
the PATH entry list and write it back joined with `";"`.  Returns the new
store and `True`. -/
def add_to_path (env : EnvSt) (newPath : String) (prepend : Bool) :
    EnvSt × Bool :=
  let np := normpath newPath
  let current := (getEnvVariable env "PATH").getD ""
  let entries := addToPathList (parseSemiPaths current) np prepend
  (setEnvVal env "PATH" (joinWith ';' entries), true)

/-! ## History ledger (`src/core/history.py`)

`installed.json` holds a list of records `{env, version, path,
install_time}`.  The model keeps the persisted record list directly. -/

structure HRecord where
  env : String
  version : String
  path : String
  installTime : String
deriving DecidableEq

/-! ## Reference rewriting (`src/core/config.py`) -/

/-- The `env_var_map` table of `_update_environment_variables`
(lines 675-681): logical software name to environment-variable names.
Maven publishes two historically-equivalent variables. -/
def envVarMap : List (String × List String) :=
  [("JDK", ["JAVA_HOME"]),
   ("Node.js", ["NODE_HOME"]),
   ("Maven", ["MAVEN_HOME", "M2_HOME"]),
   ("Redis", ["REDIS_HOME"]),
   ("Python", ["PYTHON_HOME"])]

/-- The `env_folder_map` table (lines 684-690): software name to the
folder name under `apps`. -/
def envFolderMap : List (String × String) :=
  [("JDK", "jdk"),
   ("Node.js", "nodejs"),
   ("Maven", "maven"),
   ("Redis", "redis"),
   ("Python", "python")]

def lookupAssoc : List (String × String) → String → Option String
  | [], _ => none
  | (y, v) :: rest, x => if y = x then some v else lookupAssoc rest x

/-- The per-entry rewrite of `_update_path_in_path_var` (lines 752-764):
an entry whose normalised form has the normalised old path as a *string*
prefix is rewritten by relative-path substitution against the (raw) new
path, falling back to the bare new path when `os.path.relpath` raises
(cross-drive); other entries are returned unchanged. -/
def rewriteEntry (old new e : String) : String :=
  if strStartsWith (normpath e) (normpath old) then
    match relpath (normpath e) (normpath old) with
    | some r => joinPath new r
    | none => new
  else e

/-- The rewrite loop of `_update_path_in_path_var` (lines 749-765): each
entry is tested and rewritten in place; the flag records whether any entry
matched. -/
def updatePathList : List String → String → String → List String × Bool
  | [], _, _ => ([], false)
  | e :: rest, old, new =>
    let pr := updatePathList rest old new
    if strStartsWith (normpath e) (normpath old) then
      (rewriteEntry old new e :: pr.1, true)
    else (e :: pr.1, pr.2)

/-- `_update_path_in_path_var` (lines 741-780): read PATH (a falsy value —
missing or empty — returns with no change), rewrite the entry list, and
write it back only when some entry matched.  Registry value-type handling
and the settings broadcast are not modelled. -/
def updatePathInPathVar (env : EnvSt) (old new : String) : EnvSt :=
  match getEnvVariable env "PATH" with
  | none => env
  | some cur =>
    if cur = "" then env
    else
      let (l, updated) := updatePathList (parseSemiPaths cur) old new
      if updated then setEnvVal env "PATH" (joinWith ';' l) else env

/-- The per-variable body of `_update_environment_variables`
(lines 705-732): if the variable is set and its normalised value has the
normalised `oldRoot\apps\<folder>` as a string prefix, replace it — wholesale
on exact match, otherwise by relative-path substitution (bare new path on a
cross-drive `ValueError`) — then rewrite PATH entries against the variable's
old and new values.  Returns the store and the number of variables updated
(0 or 1). -/
def updateEnvVarOne (env : EnvSt) (oldEnvPath newEnvPath varName : String) :
    EnvSt × Nat :=
  match getEnvVariable env varName with
  | none => (env, 0)
  | some cur =>
    if cur = "" then (env, 0)
    else
      let curN := normpath cur
      let oldN := normpath oldEnvPath
      if strStartsWith curN oldN then
        let newValue :=
          if curN = oldN then newEnvPath
          else
            match relpath curN oldN with
            | some r => joinPath newEnvPath r
            | none => newEnvPath
        let env1 := (setEnvVariable env varName newValue).1
        (updatePathInPathVar env1 cur newValue, 1)
      else (env, 0)

def updateEnvVars (env : EnvSt) (oldEnvPath newEnvPath : String) :
    List String → EnvSt × Nat
  | [] => (env, 0)
  | v :: rest =>
    let r1 := updateEnvVarOne env oldEnvPath newEnvPath v
    let r2 := updateEnvVars r1.1 oldEnvPath newEnvPath rest
    (r2.1, r1.2 + r2.2)

def updateEnvTable (env : EnvSt) (oldPath newPath : String) :
    List (String × List String) → EnvSt × Nat
  | [] => (env, 0)
  | (name, vars) :: rest =>
    match lookupAssoc envFolderMap name with
    | none => updateEnvTable env oldPath newPath rest
    | some folder =>
      let r1 := updateEnvVars env (joinPath (joinPath oldPath "apps") folder)
        (joinPath (joinPath newPath "apps") folder) vars
      let r2 := updateEnvTable r1.1 oldPath newPath rest
      (r2.1, r1.2 + r2.2)

/-- `_update_environment_variables` (lines 668-739).  The success flag is
part of the Python return value `(bool, str)`; every store operation in the
body catches its own exceptions, so the `(False, str(e))` branch
corresponds to no behaviour of the embedded store and the flag is
constantly `true`. -/
def updateEnvironmentVariables (env : EnvSt) (oldPath newPath : String) :
    EnvSt × Bool × Nat :=
  ((updateEnvTable env oldPath newPath envVarMap).1, true,
   (updateEnvTable env oldPath newPath envVarMap).2)

/-- The in-memory rewrite loop of `_update_history_paths` (lines 790-799):
each record with a non-empty path whose normalised form has the normalised
old root as a string prefix gets its path substituted; other fields are
untouched.  `none` models the uncaught `ValueError` from `os.path.relpath`
(reachable only on a cross-drive pathology), which aborts the whole update
before any write.  The flag records whether some record matched. -/
def rewriteRecords (old new : String) :
    List HRecord → Option (List HRecord × Bool)
  | [] => some ([], false)
  | r :: rest =>
    if r.path ≠ "" ∧ strStartsWith (normpath r.path) (normpath old) then
      match relpath (normpath r.path) (normpath old) with
      | none => none
      | some rel =>
        match rewriteRecords old new rest with
        | none => none
        | some (rs, _) => some ({ r with path := joinPath new rel } :: rs, true)
    else
      match rewriteRecords old new rest with
      | none => none
      | some (rs, u) => some (r :: rs, u)

/-- `_update_history_paths` (lines 782-809): rewrite all records in
memory, then persist the full record set in a single `json.dump` — and only
when at least one record matched.  A write failure (`writeFails`) raises
inside the body, is caught by the surrounding handler and logged as a
warning: the persisted ledger stays exactly as it was.  Returns the
persisted record list and the number of writes performed (0 or 1). -/
def updateHistoryPaths (hist : List HRecord) (writeFails : Bool)
    (old new : String) : List HRecord × Nat :=
  match rewriteRecords old new hist with
  | none => (hist, 0)
  | some (rs, updated) =>
    if updated then
      if writeFails then (hist, 0) else (rs, 1)
    else (hist, 0)

/-! ## Directory reclamation -/

/-- `_force_remove_directory` (lines 416-527), net-effect model of the
escalation: a missing path returns `True` immediately (lines 422-423);
otherwise every tier (`rmtree`, `rmtree` with the read-only error handler,
two manual per-item passes, a final `rmtree(ignore_errors=True)`) removes
exactly the entries that are not locked and not ancestors of locked files,
and the function reports whether the path is gone afterwards.  A plain
unlocked file is removed (lines 511-518); a locked one stays and the
function reports `False`.  No tier performs any sanity check on the path
itself. -/
def forceRemoveDirectory (fs : FsNode) (path : String) : FsNode × Bool :=
  match getNode fs (splitPath path) with
  | none => (fs, true)
  | some n =>
    match reapNode n with
    | none => (removeNode fs (splitPath path), true)
    | some n' => (setNode fs (splitPath path) n', false)

/-- The retry loop of `_migrate_all_files` (lines 297-303): up to three
attempts at `_force_remove_directory`. -/
def forceRemoveTriple (fs : FsNode) (p : String) : FsNode × Bool :=
  if (forceRemoveDirectory fs p).2 then forceRemoveDirectory fs p
  else if (forceRemoveDirectory (forceRemoveDirectory fs p).1 p).2 then
    forceRemoveDirectory (forceRemoveDirectory fs p).1 p
  else
    forceRemoveDirectory
      (forceRemoveDirectory (forceRemoveDirectory fs p).1 p).1 p

/-- `EnvironmentManager.remove_directory` (`src/core/env_manager.py`,
lines 207-223): a missing path only logs a warning and returns; an
existing path whose absolute form is shorter than 5 characters (a bare
drive root such as `C:\`) makes the method raise before any deletion (the
exception is logged and re-raised, flag `false`); otherwise
`shutil.rmtree` runs with the `_on_rm_error` handler, which swallows
per-entry failures, so the call returns normally (flag `true`) even when
locked entries remain.  `os.path.abspath` is the identity on the absolute
paths this development feeds in. -/
def remove_directory (fs : FsNode) (path : String) : FsNode × Bool :=
  match getNode fs (splitPath path) with
  | none => (fs, true)
  | some n =>
    if path.length < 5 then (fs, false)
    else
      match reapNode n with
      | none => (removeNode fs (splitPath path), true)
      | some n' => (setNode fs (splitPath path) n', true)

/-! ## File migration (`ConfigManager._migrate_item`, lines 326-414)

`_migrate_item` classifies one entry as `"success"` (moved), `"skipped"`
(copied, source not removable) or `"failed"`, retrying the whole body up
to `retries` times.  The recursion over the live filesystem is embedded
with an explicit `fuel` bound; the Python recursion terminates on every
finite tree, and all theorems either quantify over the fuel or instantiate
it far above the tree depth, so the out-of-fuel branch is never taken. -/

inductive MigStatus where
  | success : MigStatus
  | skipped : MigStatus
  | failed : MigStatus
deriving DecidableEq

/-- The source-directory deletion phase of the directory branch
(lines 350-374): remove the source directory if it is already empty;
otherwise best-effort-delete each child (`shutil.rmtree` without handlers —
partial, first locked file aborts that child — or `os.remove`, failures
swallowed), then remove the directory if it ended up empty.  The phase
returns `"success"` (line 375); the `"skipped"` return at line 373 requires
the guarded `listdir`/`rmdir` calls themselves to raise, which no behaviour
of the model produces. -/
def migrateDirDelete (fs : FsNode) (old : Comps) : FsNode × MigStatus :=
  if listdirFs fs old = [] then (removeNode fs old, .success)
  else
    let fs1 := (listdirFs fs old).foldl
      (fun acc name =>
        let sub := old ++ [name]
        match getNode acc sub with
        | some (.dir es) =>
          match rmtreeStrict (.dir es) with
          | (none, _) => removeNode acc sub
          | (some r, _) => setNode acc sub r
        | some (.file l _ _) =>
          if l then acc else removeNode acc sub
        | none => acc)
      fs
    if listdirFs fs1 old = [] then (removeNode fs1 old, .success)
    else (fs1, .success)

/-- `_migrate_item(old, new, retries)` with `attemptsLeft` counting the
remaining iterations of `for attempt in range(retries)` (so the Python
guard `attempt < retries - 1` is `attemptsLeft > 1`).  `fuel` bounds the
recursion (decremented on every recursive call, so it must exceed the
number of nested calls; every theorem quantifies over it or instantiates
it far above what the scenario consumes, and the out-of-fuel branch is
never taken).

Directory branch (lines 339-375): if the destination exists, merge child
by child with `retries=1`, the children's classifications *discarded*
(line 346 — the loop below keeps only the filesystem effects); otherwise
`shutil.copytree`, whose partial copy stands and which raises after the
fact when some file inside was unreadable — the raise reaches the generic
handler (lines 408-412) and retries or fails.  A copy phase that did not
raise proceeds to the deletion phase and returns its status.

File branch (lines 377-395): copy unless the destination already exists
(an unreadable source raises out to the generic handler: retry or
`"failed"`); then try to remove the source — a locked source retries and
finally returns `"skipped"` (lines 385-390), an unlocked one is removed
(`"success"`).  A missing source raises `FileNotFoundError` from the copy,
reaching the generic handler: retry or `"failed"`. -/
def migrateItem : Nat → FsNode → Comps → Comps → Nat → FsNode × MigStatus
  | 0, fs, _, _, _ => (fs, .failed)
  | fuel + 1, fs, old, new, attemptsLeft =>
    match getNode fs old with
    | some (.dir es) =>
      if existsFs fs new then
        let fs1 := (listdirFs fs old).foldl
          (fun acc name =>
            (migrateItem fuel acc (old ++ [name]) (new ++ [name]) 1).1)
          fs
        migrateDirDelete fs1 old
      else
        let fs1 := setNode fs new (copyTree (.dir es))
        if hasUnreadable (.dir es) then
          if attemptsLeft > 1 then migrateItem fuel fs1 old new (attemptsLeft - 1)
          else (fs1, .failed)
        else migrateDirDelete fs1 old
    | some (.file l u c) =>
      if ¬ existsFs fs new then
        if u then
          if attemptsLeft > 1 then migrateItem fuel fs old new (attemptsLeft - 1)
          else (fs, .failed)
        else
          let fs1 := setNode fs new (.file false false c)
          if l then
            if attemptsLeft > 1 then
              migrateItem fuel fs1 old new (attemptsLeft - 1)
            else (fs1, .skipped)
          else (removeNode fs1 old, .success)
      else
        if l then
          if attemptsLeft > 1 then migrateItem fuel fs old new (attemptsLeft - 1)
          else (fs, .skipped)
        else (removeNode fs old, .success)
    | none =>
      if attemptsLeft > 1 then migrateItem fuel fs old new (attemptsLeft - 1)
      else (fs, .failed)

/-! ## Whole-root migration (`ConfigManager._migrate_all_files`,
lines 250-324) -/

/-- The four managed subdirectories, migrated in this fixed order
(line 260). -/
def dirsToMigrate : List String := ["downloads", "logs", "config", "apps"]

/-- The merge loop of `_migrate_all_files` (lines 272-280): migrate each
top-level item of a managed subdirectory with `retries=3`, recording the
sources classified `"failed"` and `"skipped"`. -/
def migrateTopItems : Nat → FsNode → Comps → Comps → List String →
    FsNode × List Comps × List Comps
  | _, fs, _, _, [] => (fs, [], [])
  | fuel, fs, oldDir, newDir, name :: rest =>
    let r := migrateItem fuel fs (oldDir ++ [name]) (newDir ++ [name]) 3
    let t := migrateTopItems fuel r.1 oldDir newDir rest
    match r.2 with
    | .failed => (t.1, (oldDir ++ [name]) :: t.2.1, t.2.2)
    | .skipped => (t.1, t.2.1, (oldDir ++ [name]) :: t.2.2)
    | .success => t

/-- One iteration of the subdirectory loop (lines 264-294): a missing
source subdirectory is skipped; an existing destination is merged item by
item, then the emptied source directory is removed (lines 282-287); an
absent destination moves the whole subdirectory as one recorded item. -/
def migrateOneDir (fuel : Nat) (fs : FsNode) (oldPath newPath : Comps)
    (dirName : String) : FsNode × List Comps × List Comps :=
  let oldDir := oldPath ++ [dirName]
  let newDir := newPath ++ [dirName]
  if existsFs fs oldDir then
    if existsFs fs newDir then
      let t := migrateTopItems fuel fs oldDir newDir (listdirFs fs oldDir)
      let fs2 := if listdirFs t.1 oldDir = [] then removeNode t.1 oldDir else t.1
      (fs2, t.2.1, t.2.2)
    else
      let r := migrateItem fuel fs oldDir newDir 3
      match r.2 with
      | .failed => (r.1, [oldDir], [])
      | .skipped => (r.1, [], [oldDir])
      | .success => (r.1, [], [])
  else (fs, [], [])

/-- The subdirectory loop over `dirs_to_migrate` (lines 264-294),
concatenating the failed and skipped lists in iteration order. -/
def migrateDirsPhase (fuel : Nat) (fs : FsNode) (oldPath newPath : Comps) :
    List String → FsNode × List Comps × List Comps
  | [] => (fs, [], [])
  | d :: rest =>
    let r1 := migrateOneDir fuel fs oldPath newPath d
    let r2 := migrateDirsPhase fuel r1.1 oldPath newPath rest
    (r2.1, r1.2.1 ++ r2.2.1, r1.2.2 ++ r2.2.2)

structure MigrationOutcome where
  fs : FsNode
  ok : Bool
  failedFiles : List Comps
  skippedFiles : List Comps
  oldRemoved : Bool

/-- `_migrate_all_files(old_path, new_path)` (lines 250-324): quiesce the
logger's handles (`_close_logger_handlers` — no filesystem effect beyond
what the per-scenario `locked` flags already encode), migrate the four
managed subdirectories, then unconditionally attempt forced removal of the
*entire old root* up to three times (lines 296-303) — before the failure
check — and finally report failure iff some entry was recorded `"failed"`
(lines 317-322). -/
def migrateAllFiles (fuel : Nat) (fs : FsNode) (oldPath newPath : String) :
    MigrationOutcome :=
  let ph := migrateDirsPhase fuel fs (splitPath oldPath) (splitPath newPath)
    dirsToMigrate
  let fr := forceRemoveTriple ph.1 oldPath
  { fs := fr.1, ok := ph.2.1.isEmpty, failedFiles := ph.2.1,
    skippedFiles := ph.2.2, oldRemoved := fr.2 }

/-! ## The relocation coordinator
(`ConfigManager.set_manager_folder_path`, lines 121-228) -/

/-- Identifies the `return` site of `set_manager_folder_path` that
produced the result; each constructor corresponds to one Python message. -/
inductive RelocMsg where
  | emptyPath : RelocMsg          -- "路径不能为空" (line 132)
  | unchanged : RelocMsg          -- "路径未改变" (line 140)
  | migrationFailed : RelocMsg    -- "文件迁移失败: …" (line 162)
  | envUpdateFailed : RelocMsg    -- "环境变量更新失败: …" (line 170)
  | successOldRemoved : RelocMsg  -- "迁移成功，原目录已删除" (line 214)
  | successScheduled : RelocMsg   -- "迁移成功。原目录将在系统重启时自动删除。…" (line 220)
  | successAdminRemoved : RelocMsg -- "迁移成功，原目录已通过管理员权限删除" (line 226)
  | successResidual : RelocMsg    -- "迁移成功，但原目录无法立即删除…" (line 228)
deriving DecidableEq

/-- The state the coordinator touches: the filesystem tree, the user
environment store, the persisted history ledger (with a count of writes to
it and a flag injecting a write failure), the availability of the
`MoveFileEx(..., DELAY_UNTIL_REBOOT)` mechanism and of the elevated
deletion helper, the process working directory, and the ledger's current
root.  The `os.makedirs` failure branches of validation (lines 144-155)
correspond to no behaviour of this model, where directory creation always
succeeds. -/
structure Sys where
  fs : FsNode
  env : EnvSt
  history : List HRecord
  historyWrites : Nat
  historyWriteFails : Bool
  rebootScheduler : Bool
  scheduledForReboot : List String
  adminDelete : Bool
  cwd : String
  managerFolderPath : String

/-- `_ensure_directories` (lines 101-115): create whichever of the four
managed subdirectories is missing. -/
def ensureDirs (fs : FsNode) (root : Comps) : FsNode :=
  dirsToMigrate.foldl
    (fun acc d =>
      if existsFs acc (root ++ [d]) then acc
      else setNode acc (root ++ [d]) (.dir []))
    fs

/-- Lines 196-202: delete a stale `config.json` in the process working
directory, if present. -/
def cwdCleanup (σ : Sys) : Sys :=
  if existsFs σ.fs (splitPath σ.cwd ++ ["config.json"]) then
    { σ with fs := removeNode σ.fs (splitPath σ.cwd ++ ["config.json"]) }
  else σ

/-- Lines 207-228: reinitialise the logger (no filesystem effect in the
model), wait, then reclaim the old root: forced removal first; on failure
the delete-on-reboot registration; then the elevated helper; every branch
returns overall success with its own message. -/
def reclaimStage (σ : Sys) (old : String) : Sys × Bool × RelocMsg :=
  if (forceRemoveDirectory σ.fs old).2 then
    ({ σ with fs := (forceRemoveDirectory σ.fs old).1 },
     true, .successOldRemoved)
  else if σ.rebootScheduler then
    ({ σ with
        fs := (forceRemoveDirectory σ.fs old).1
        scheduledForReboot := σ.scheduledForReboot ++ [old] },
     true, .successScheduled)
  else if σ.adminDelete then
    ({ σ with
        fs := removeNode (forceRemoveDirectory σ.fs old).1 (splitPath old) },
     true, .successAdminRemoved)
  else
    ({ σ with fs := (forceRemoveDirectory σ.fs old).1 },
     true, .successResidual)

/-- Lines 166-228 of `set_manager_folder_path`: everything after the file
migration.  Environment rewriting runs first; its failure branch
(lines 169-172) aborts with `Failed`, but `updateEnvironmentVariables`
reports success on every store (see `updateEnvironmentVariables_ok`).
History rewriting failures are swallowed (lines 177-180).  Then the ledger
is updated in memory (line 183) and through `DEVENVMANAGER_CONFIG`
(line 189), the configuration is saved under the new root, the four
subdirectories are ensured, then `cwdCleanup` and `reclaimStage` finish
the job. -/
def relocateTail (σ : Sys) (old p : String) : Sys × Bool × RelocMsg :=
  let σ1 := { σ with env := (updateEnvironmentVariables σ.env old p).1 }
  if (updateEnvironmentVariables σ.env old p).2.1 = false then
    (σ1, false, .envUpdateFailed)
  else
    let h := updateHistoryPaths σ1.history σ1.historyWriteFails old p
    let σ2 := { σ1 with history := h.1, historyWrites := σ1.historyWrites + h.2 }
    let σ3 := { σ2 with managerFolderPath := p }
    let σ4 := { σ3 with env := setEnvVal σ3.env "DEVENVMANAGER_CONFIG" p }
    let σ5 := { σ4 with
      fs := setNode σ4.fs (splitPath p ++ ["config", "config.json"])
        (.file false false 0) }
    let σ6 := { σ5 with fs := ensureDirs σ5.fs (splitPath p) }
    reclaimStage (cwdCleanup σ6) old

/-- The directory-creation half of validation (lines 142-155): create the
destination's parent if missing, then the destination itself if missing
(`os.makedirs` succeeds in this model, so the two failure returns are not
taken). -/
def prepareFs (fs : FsNode) (p : String) : FsNode :=
  let parent := dirname p
  let fs1 :=
    if existsFs fs (splitPath parent) then fs
    else setNode fs (splitPath parent) (.dir [])
  if existsFs fs1 (splitPath p) then fs1
  else setNode fs1 (splitPath p) (.dir [])

def prepareDirs (σ : Sys) (p : String) : Sys := { σ with fs := prepareFs σ.fs p }

/-- `set_manager_folder_path(path, migrate_files)` (lines 121-228).
Validation: an empty path fails; a path equal (after normalisation) to the
current root returns success `"路径未改变"` untouched; the destination's
parent and the destination itself are created when missing.  File
migration runs when requested, the old root exists and differs from the
destination; a failed migration returns `Failed` at once, keeping the
filesystem the migration left behind.  The rest is `relocateTail`. -/
def setManagerFolderPath (fuel : Nat) (σ : Sys) (path : String)
    (migrateFiles : Bool) : Sys × Bool × RelocMsg :=
  if path = "" then (σ, false, .emptyPath)
  else
    let p := normpath path
    let old := σ.managerFolderPath
    if normpath p = normpath old then (σ, true, .unchanged)
    else
      let σ2 := prepareDirs σ p
      if migrateFiles ∧ existsFs σ2.fs (splitPath old) ∧ old ≠ p then
        let m := migrateAllFiles fuel σ2.fs old p
        if m.ok then relocateTail { σ2 with fs := m.fs } old p
        else ({ σ2 with fs := m.fs }, false, .migrationFailed)
      else relocateTail σ2 old p

/-! ## Specification-side definitions

Used only to *state* properties; theorems compare them with the embedded
code. -/

/-- The value the spec's prefix-substitution rule assigns to a mapped
variable currently holding `cur`, for the per-software path pair
`oldEnvPath`/`newEnvPath`: wholesale replacement on exact (normalised)
match, relative-path substitution when the normalised value has the
normalised old path as a string prefix (bare new path on a cross-drive
failure), and no change otherwise. -/
def expectedVarRewrite (oldEnvPath newEnvPath cur : String) : String :=
  if strStartsWith (normpath cur) (normpath oldEnvPath) then
    if normpath cur = normpath oldEnvPath then newEnvPath
    else
      match relpath (normpath cur) (normpath oldEnvPath) with
      | some r => joinPath newEnvPath r
      | none => newEnvPath
  else cur

/-- The `(folder, variable)` pairs the two tables of
`_update_environment_variables` produce, in processing order. -/
def mappedVarFolders : List (String × String) :=
  [("jdk", "JAVA_HOME"), ("nodejs", "NODE_HOME"), ("maven", "MAVEN_HOME"),
   ("maven", "M2_HOME"), ("redis", "REDIS_HOME"), ("python", "PYTHON_HOME")]

/-- The selection test of `_update_history_paths` (line 792): non-empty
path whose normalised form has the normalised old root as a string
prefix. -/
def recordMatches (old : String) (r : HRecord) : Bool :=
  (r.path ≠ "") && strStartsWith (normpath r.path) (normpath old)

/-- The per-record rewrite of `_update_history_paths` (lines 794-798) on a
matching record; `rewriteRecords` equals mapping this over the record list
whenever no cross-drive `ValueError` occurs. -/
def rewriteRecordOne (old new : String) (r : HRecord) : HRecord :=
  if recordMatches old r then
    { r with path :=
        joinPath new ((relpath (normpath r.path) (normpath old)).getD ".") }
  else r

/-! ### Concrete scenarios used by witnesses and counterexamples -/

/-- A drive containing one plain file. -/
def fsScen3 : FsNode := .dir [("C:", .dir [("x", .file false false 1)])]

/-- A drive containing one file; the reclamation target `C:\gone` does not
exist here. -/
def fsScen7 : FsNode := .dir [("C:", .dir [("data", .file false false 1)])]

/-- A system whose managed root is `C:\old` (an existing empty root). -/
def sysScen5 : Sys :=
  { fs := .dir [("C:", .dir [("old", .dir [])])], env := [], history := [],
    historyWrites := 0, historyWriteFails := false, rebootScheduler := false,
    scheduledForReboot := [], adminDelete := false, cwd := "D:\\work",
    managerFolderPath := "C:\\old" }

/-- The old root `C:\old` holds a single unreadable file
`downloads\f.txt`; the destination `C:\new` does not exist yet. -/
def fsScen1 : FsNode :=
  .dir [("C:", .dir [("old",
    .dir [("downloads", .dir [("f.txt", .file false true 7)])])])]

def sysScen1 : Sys :=
  { fs := fsScen1, env := [], history := [], historyWrites := 0,
    historyWriteFails := false, rebootScheduler := false,
    scheduledForReboot := [], adminDelete := false, cwd := "D:\\work",
    managerFolderPath := "C:\\old" }

/-- The filesystem state at the moment the merge pass of the relocation of
`sysScen1` to `C:\new` reaches `f.txt`: validation created `C:\new`, the
first migration attempt's `copytree` created `C:\new\downloads` (empty,
`f.txt` being unreadable) and raised, and the retry entered the merge
branch. -/
def fsScen1Mid : FsNode :=
  .dir [("C:", .dir
    [("old", .dir [("downloads", .dir [("f.txt", .file false true 7)])]),
     ("new", .dir [("downloads", .dir [])])])]

/-- Like `sysScen1`, but the destination root `C:\new` already exists with
a `downloads` subdirectory, so the migration merges entry by entry and the
unreadable `f.txt` is recorded as a `"failed"` top-level entry. -/
def sysScen1W : Sys :=
  { fs := .dir [("C:", .dir
      [("old", .dir [("downloads", .dir [("f.txt", .file false true 7)])]),
       ("new", .dir [("downloads", .dir [])])])],
    env := [], history := [], historyWrites := 0, historyWriteFails := false,
    rebootScheduler := false, scheduledForReboot := [], adminDelete := false,
    cwd := "D:\\work", managerFolderPath := "C:\\old" }

/-- A relocation from `C:\old` (holding one ordinary file) to `C:\new`,
with a history record under the old root and a history store whose write
fails. -/
def sysScen2 : Sys :=
  { fs := .dir [("C:", .dir [("old",
      .dir [("downloads", .dir [("a.zip", .file false false 3)])])])],
    env := [("JAVA_HOME", "C:\\old\\apps\\jdk")],
    history := [⟨"JDK", "17", "C:\\old\\apps\\jdk", "t"⟩],
    historyWrites := 0, historyWriteFails := true, rebootScheduler := false,
    scheduledForReboot := [], adminDelete := false, cwd := "D:\\work",
    managerFolderPath := "C:\\old" }

/-! # Theorems -/

/-! ## C10 — missing environment variables are never errors -/

/-- C10: at the environment-store interface a missing variable is never an
error: `get_env_variable` returns `None` rather than raising, and
`remove_env_variable` on a non-existent variable returns `True` while
leaving the environment unchanged. -/
theorem missing_env_var_not_error (env : EnvSt) (name : String)
    (h : lookupEnv env name = none) :
    getEnvVariable env name = none ∧ removeEnvVariable env name = (env, true) := by
  refine ⟨h, ?_⟩
  unfold removeEnvVariable
  rw [h]

theorem missing_env_var_not_error_witness :
    lookupEnv [("JAVA_HOME", "C:\\x")] "NODE_HOME" = none ∧
      (getEnvVariable [("JAVA_HOME", "C:\\x")] "NODE_HOME" = none ∧
        removeEnvVariable [("JAVA_HOME", "C:\\x")] "NODE_HOME"
          = ([("JAVA_HOME", "C:\\x")], true)) :=
  ⟨by decide, missing_env_var_not_error _ _ (by decide)⟩

/-! ## C7 — reclamation is a no-op success on a missing path -/

/-- C7: invoking the reclamation operation on a path that does not exist is
a no-op that reports success, so invoking it twice on the same
fully-removed path reports success both times. -/
theorem reclaim_missing_path_idempotent (fs : FsNode) (p : String)
    (h : getNode fs (splitPath p) = none) :
    forceRemoveDirectory fs p = (fs, true) ∧
      forceRemoveDirectory (forceRemoveDirectory fs p).1 p = (fs, true) := by
  have h1 : forceRemoveDirectory fs p = (fs, true) := by
    unfold forceRemoveDirectory
    rw [h]
  exact ⟨h1, by rw [h1]; exact h1⟩

theorem reclaim_missing_path_idempotent_witness :
    getNode fsScen7 (splitPath "C:\\gone") = none ∧
      (forceRemoveDirectory fsScen7 "C:\\gone" = (fsScen7, true) ∧
        forceRemoveDirectory (forceRemoveDirectory fsScen7 "C:\\gone").1 "C:\\gone"
          = (fsScen7, true)) :=
  ⟨rfl, reclaim_missing_path_idempotent _ _ rfl⟩

/-! ## C3 — the short-path sanity check -/

/-- C3 counterexample: the relocation reclamation
(`ConfigManager._force_remove_directory`) performs no minimum-path-length
check.  Passing the bare drive root `C:\` deletes its contents and reports
success instead of refusing, contrary to the claim. -/
theorem reclaim_drive_root_proceeds :
    (getNode fsScen3 ["C:", "x"]).isSome = true ∧
      (forceRemoveDirectory fsScen3 "C:\\").2 = true ∧
      getNode (forceRemoveDirectory fsScen3 "C:\\").1 ["C:"] = none :=
  ⟨rfl, rfl, rfl⟩

/-- C3 amended: only the uninstall helper
`EnvironmentManager.remove_directory` enforces the minimum-path-length
sanity check: on an existing path whose absolute form is shorter than 5
characters (a bare drive root such as `C:\`) it raises before attempting
any deletion, leaving the filesystem unchanged. -/
theorem remove_directory_refuses_short_path (fs : FsNode) (p : String)
    (n : FsNode) (hex : getNode fs (splitPath p) = some n)
    (hshort : p.length < 5) :
    remove_directory fs p = (fs, false) := by
  unfold remove_directory
  rw [hex]
  simp [hshort]

theorem remove_directory_refuses_short_path_witness :
    getNode fsScen3 (splitPath "C:\\") = some (.dir [("x", .file false false 1)]) ∧
      "C:\\".length < 5 ∧
      remove_directory fsScen3 "C:\\" = (fsScen3, false) :=
  ⟨rfl, by decide, remove_directory_refuses_short_path _ _ _ rfl (by decide)⟩

/-! ## C5 — validation terminal states -/

/-- C5 counterexample: a destination equal to the current root does not
terminate in the `Failed` state; `set_manager_folder_path` returns success
(`True, "路径未改变"`) with the state untouched. -/
theorem unchanged_destination_not_failed :
    (setManagerFolderPath 64 sysScen5 "C:\\old" true).2.1 = true ∧
      (setManagerFolderPath 64 sysScen5 "C:\\old" true).2.2 = RelocMsg.unchanged ∧
      (setManagerFolderPath 64 sysScen5 "C:\\old" true).1 = sysScen5 :=
  ⟨rfl, rfl, rfl⟩

/-- C5 amended: an empty destination fails (`Failed`, nothing migrated or
rewritten, ledger unchanged); a destination equal (after normalisation) to
the current root is accepted as a trivial success — the call returns
`True` with message "路径未改变" and the state untouched, likewise without
migrating, rewriting, or changing the ledger. -/
theorem relocation_validation_terminal (fuel : Nat) (σ : Sys) (path : String)
    (mf : Bool) :
    (path = "" → setManagerFolderPath fuel σ path mf = (σ, false, .emptyPath)) ∧
      (path ≠ "" → normpath (normpath path) = normpath σ.managerFolderPath →
        setManagerFolderPath fuel σ path mf = (σ, true, .unchanged)) := by
  constructor
  · intro h
    simp [setManagerFolderPath, h]
  · intro hne h
    simp [setManagerFolderPath, hne, h]

theorem relocation_validation_terminal_witness :
    setManagerFolderPath 1 sysScen5 "" true = (sysScen5, false, .emptyPath) ∧
      setManagerFolderPath 1 sysScen5 "C:\\old" true = (sysScen5, true, .unchanged) :=
  ⟨(relocation_validation_terminal 1 sysScen5 "" true).1 rfl,
   (relocation_validation_terminal 1 sysScen5 "C:\\old" true).2 (by decide) (by decide)⟩

/-! ## C8 — search-path entry rewriting -/

/-- C8 counterexample: an entry that is neither equal to nor nested under
the old path is nevertheless rewritten, because the code tests a *string*
`startswith` on the normalised entry: the sibling `C:\old\apps\jdk2` of
`C:\old\apps\jdk` is not left untouched. -/
theorem path_var_rewrites_non_nested_entry :
    isNestedUnder "C:\\old\\apps\\jdk2" "C:\\old\\apps\\jdk" = false ∧
      "C:\\old\\apps\\jdk2" ≠ "C:\\old\\apps\\jdk" ∧
      (updatePathList ["D:\\keep", "C:\\old\\apps\\jdk2"]
          "C:\\old\\apps\\jdk" "C:\\new\\apps\\jdk").1
        = ["D:\\keep", "C:\\new\\apps\\jdk\\..\\jdk2"] :=
  ⟨rfl, by decide, rfl⟩

/-- C8 amended: when rewriting a search-path-style variable, exactly the
entries whose *normalised form has the normalised old path as a string
prefix* (which covers all entries equal to or nested under it, but also
sibling entries extending its last component) are rewritten by prefix
substitution; every other entry is left untouched and the relative order
of all entries is preserved — the rewritten list is a pointwise map of the
original. -/
theorem updatePathList_spec (paths : List String) (old new : String) :
    (updatePathList paths old new).1 = paths.map (rewriteEntry old new) ∧
      (updatePathList paths old new).2
        = paths.any (fun e => strStartsWith (normpath e) (normpath old)) ∧
      ∀ e, strStartsWith (normpath e) (normpath old) = false →
        rewriteEntry old new e = e := by
  refine ⟨?_, ?_, ?_⟩
  · induction paths with
    | nil => rfl
    | cons e rest ih =>
      by_cases hc : strStartsWith (normpath e) (normpath old) = true
      · simp [updatePathList, hc, ih]
      · simp only [Bool.not_eq_true] at hc
        simp [updatePathList, hc, ih, rewriteEntry]
  · induction paths with
    | nil => rfl
    | cons e rest ih =>
      by_cases hc : strStartsWith (normpath e) (normpath old) = true
      · simp [updatePathList, hc]
      · simp only [Bool.not_eq_true] at hc
        simp [updatePathList, hc, ih]
  · intro e h
    simp [rewriteEntry, h]

theorem updatePathList_spec_witness :
    ((updatePathList ["D:\\keep", "C:\\old\\apps\\jdk\\bin"]
        "C:\\old\\apps\\jdk" "C:\\new\\apps\\jdk").1
      = ["D:\\keep", "C:\\old\\apps\\jdk\\bin"].map
          (rewriteEntry "C:\\old\\apps\\jdk" "C:\\new\\apps\\jdk")) ∧
      (strStartsWith (normpath "D:\\keep") (normpath "C:\\old\\apps\\jdk") = false ∧
        rewriteEntry "C:\\old\\apps\\jdk" "C:\\new\\apps\\jdk" "D:\\keep" = "D:\\keep") :=
  ⟨(updatePathList_spec _ _ _).1,
   rfl,
   (updatePathList_spec ["D:\\keep", "C:\\old\\apps\\jdk\\bin"]
      "C:\\old\\apps\\jdk" "C:\\new\\apps\\jdk").2.2 "D:\\keep" rfl⟩

/-! ## C6 — history rewriting is in-memory with at most one write -/

/-- When no record triggers the cross-drive `ValueError`, the in-memory
rewrite pass is exactly a pointwise map, and a record matched iff some
record satisfies the selection test. -/
theorem rewriteRecords_eq_map (old new : String) (hist : List HRecord)
    (hrel : ∀ r ∈ hist, recordMatches old r = true →
      (relpath (normpath r.path) (normpath old)).isSome = true) :
    rewriteRecords old new hist
      = some (hist.map (rewriteRecordOne old new), hist.any (recordMatches old)) := by
  induction hist with
  | nil => rfl
  | cons r rest ih =>
    have ih' := ih (fun q hq => hrel q (List.mem_cons_of_mem r hq))
    by_cases hm : recordMatches old r = true
    · have hcond : r.path ≠ "" ∧ strStartsWith (normpath r.path) (normpath old) := by
        have := hm
        unfold recordMatches at this
        simp only [Bool.and_eq_true, decide_eq_true_eq] at this
        exact ⟨this.1, this.2⟩
      obtain ⟨rel, hr⟩ := Option.isSome_iff_exists.mp
        (hrel r (List.mem_cons_self r rest) hm)
      simp only [rewriteRecords, hcond.1, hcond.2, and_self, if_true, hr, ih',
        List.map_cons, List.any_cons, hm, Bool.true_or, rewriteRecordOne, hm,
        if_pos, Option.getD_some]
      simp [hcond.1]
    · have hcond : ¬ (r.path ≠ "" ∧ strStartsWith (normpath r.path) (normpath old)) := by
        intro hc
        apply hm
        unfold recordMatches
        simp only [Bool.and_eq_true, decide_eq_true_eq]
        exact ⟨hc.1, hc.2⟩
      simp only [rewriteRecords, if_neg hcond, ih', List.map_cons, List.any_cons,
        Bool.or_eq_true]
      have hone : rewriteRecordOne old new r = r := by
        unfold rewriteRecordOne
        simp [hm]
      simp [hone, hm]

/-- C6 amended: history rewriting updates all matching records (those with a
non-empty stored path whose *normalised form has the normalised old root as
a string prefix* — the code's test, which also captures sibling directories
extending the root's last component, not only nested paths) entirely in
memory and persists the full record set in exactly one write, performed only
when at least one record matched; when no record matches, the file is not
written at all; and in every case the persisted set is all-or-nothing: the
old record list or the fully rewritten one, never a partial mix. -/
theorem updateHistoryPaths_spec (hist : List HRecord) (wf : Bool)
    (old new : String)
    (hrel : ∀ r ∈ hist, recordMatches old r = true →
      (relpath (normpath r.path) (normpath old)).isSome = true) :
    (hist.any (recordMatches old) = false →
      updateHistoryPaths hist wf old new = (hist, 0)) ∧
      (hist.any (recordMatches old) = true → wf = false →
        updateHistoryPaths hist wf old new
          = (hist.map (rewriteRecordOne old new), 1)) ∧
      ((updateHistoryPaths hist wf old new).1 = hist ∨
        (updateHistoryPaths hist wf old new).1
          = hist.map (rewriteRecordOne old new)) ∧
      (updateHistoryPaths hist wf old new).2 ≤ 1 := by
  have hrw := rewriteRecords_eq_map old new hist hrel
  refine ⟨?_, ?_, ?_, ?_⟩
  · intro hno
    unfold updateHistoryPaths
    rw [hrw, hno]
    rfl
  · intro hyes hwf
    unfold updateHistoryPaths
    rw [hrw, hyes, hwf]
    rfl
  · unfold updateHistoryPaths
    rw [hrw]
    cases hist.any (recordMatches old) <;> cases wf <;> simp
  · unfold updateHistoryPaths
    rw [hrw]
    cases hist.any (recordMatches old) <;> cases wf <;> simp

/-- C6 counterexample: a ledger whose only record is `C:\old2\x` — not
nested under the old root `C:\old` — is nevertheless rewritten and written
back (one write), because the selection test is a string `startswith` on
normalised paths. -/
theorem history_written_without_nested_record :
    isNestedUnder "C:\\old2\\x" "C:\\old" = false ∧
      updateHistoryPaths [⟨"JDK", "17", "C:\\old2\\x", "t"⟩] false
          "C:\\old" "C:\\new"
        = ([⟨"JDK", "17", "C:\\new\\..\\old2\\x", "t"⟩], 1) :=
  ⟨rfl, rfl⟩

theorem updateHistoryPaths_spec_witness :
    (updateHistoryPaths [(⟨"JDK", "17", "C:\\old\\apps\\jdk", "t"⟩ : HRecord)]
        false "C:\\old" "C:\\new"
      = ([(⟨"JDK", "17", "C:\\old\\apps\\jdk", "t"⟩ : HRecord)].map
          (rewriteRecordOne "C:\\old" "C:\\new"), 1)) ∧
      (updateHistoryPaths [(⟨"JDK", "17", "D:\\other", "t"⟩ : HRecord)]
          false "C:\\old" "C:\\new"
        = ([(⟨"JDK", "17", "D:\\other", "t"⟩ : HRecord)], 0)) :=
  ⟨(updateHistoryPaths_spec _ false "C:\\old" "C:\\new"
      (by intro r hr hm; revert hm; fin_cases hr; decide)).2.1 rfl rfl,
   (updateHistoryPaths_spec _ false "C:\\old" "C:\\new"
      (by intro r hr hm; revert hm; fin_cases hr; decide)).1 rfl⟩

/-! ## C9 — `add_to_path` places exactly one normalised entry -/

/-- C9: after `add_to_path(p)` succeeds, the stored user PATH is the
semicolon join of an entry list that contains exactly one entry equal
case-insensitively to the normalised `p` — every pre-existing occurrence
was removed — inserted at the front when `prepend=True` and at the end
when `prepend=False`, with all other entries preserved in their original
order. -/
theorem add_to_path_spec (env : EnvSt) (p : String) (prepend : Bool) :
    let np := normpath p
    let olds := parseSemiPaths ((getEnvVariable env "PATH").getD "")
    let entries := addToPathList olds np prepend
    add_to_path env p prepend
        = (setEnvVal env "PATH" (joinWith ';' entries), true) ∧
      (entries.filter (fun e => strLower e = strLower np)).length = 1 ∧
      entries.filter (fun e => strLower e ≠ strLower np)
        = olds.filter (fun e => strLower e ≠ strLower np) ∧
      (prepend = true → entries.head? = some np) ∧
      (prepend = false → entries.getLast? = some np) := by
  intro np olds entries
  have hrem : ∀ e ∈ olds.filter (fun q => strLower q ≠ strLower np),
      ¬ (strLower e = strLower np) := by
    intro e he
    have := List.mem_filter.mp he
    simpa using this.2
  have hmatchnil :
      (olds.filter (fun q => strLower q ≠ strLower np)).filter
        (fun e => strLower e = strLower np) = [] := by
    rw [List.filter_eq_nil_iff]
    intro a ha
    simpa using hrem a ha
  have hself :
      (olds.filter (fun q => strLower q ≠ strLower np)).filter
        (fun e => strLower e ≠ strLower np)
        = olds.filter (fun q => strLower q ≠ strLower np) := by
    rw [List.filter_eq_self]
    intro a ha
    have := List.mem_filter.mp ha
    exact this.2
  refine ⟨rfl, ?_, ?_, ?_, ?_⟩
  · show ((addToPathList olds np prepend).filter
        (fun e => strLower e = strLower np)).length = 1
    unfold addToPathList
    cases prepend with
    | true =>
      simp only [if_true]
      rw [List.filter_cons]
      simp [hmatchnil]
    | false =>
      simp only [if_false, Bool.false_eq_true]
      rw [List.filter_append]
      simp [hmatchnil]
  · show (addToPathList olds np prepend).filter
        (fun e => strLower e ≠ strLower np)
        = olds.filter (fun e => strLower e ≠ strLower np)
    unfold addToPathList
    cases prepend with
    | true =>
      simp only [if_true]
      rw [List.filter_cons]
      simp [hself]
    | false =>
      simp only [if_false, Bool.false_eq_true]
      rw [List.filter_append]
      simp [hself]
  · intro hp
    show (addToPathList olds np prepend).head? = some np
    unfold addToPathList
    rw [hp]
    rfl
  · intro hp
    show (addToPathList olds np prepend).getLast? = some np
    unfold addToPathList
    rw [hp]
    simp [List.getLast?_concat]

theorem add_to_path_spec_witness :
    add_to_path [("PATH", "C:\\a;c:\\TOOL;C:\\b")] "C:\\tool" true
        = (setEnvVal [("PATH", "C:\\a;c:\\TOOL;C:\\b")] "PATH"
            (joinWith ';'
              (addToPathList
                (parseSemiPaths
                  ((getEnvVariable [("PATH", "C:\\a;c:\\TOOL;C:\\b")] "PATH").getD ""))
                (normpath "C:\\tool") true)), true) ∧
      (addToPathList
          (parseSemiPaths
            ((getEnvVariable [("PATH", "C:\\a;c:\\TOOL;C:\\b")] "PATH").getD ""))
          (normpath "C:\\tool") true).head? = some (normpath "C:\\tool") :=
  ⟨(add_to_path_spec [("PATH", "C:\\a;c:\\TOOL;C:\\b")] "C:\\tool" true).1,
   (add_to_path_spec [("PATH", "C:\\a;c:\\TOOL;C:\\b")] "C:\\tool" true).2.2.2.1 rfl⟩

/-! ## C4 — mapped environment-variable rewriting -/

theorem lookupEnv_setEnvVal_eq (e : EnvSt) (x v : String) :
    lookupEnv (setEnvVal e x v) x = some v := by
  induction e with
  | nil => simp [setEnvVal, lookupEnv]
  | cons hd t ih =>
    obtain ⟨y, w⟩ := hd
    by_cases hx : y = x
    · simp [setEnvVal, hx, lookupEnv]
    · simp [setEnvVal, hx, lookupEnv, ih]

theorem lookupEnv_setEnvVal_ne (e : EnvSt) (x v k : String) (h : k ≠ x) :
    lookupEnv (setEnvVal e x v) k = lookupEnv e k := by
  have hxk : x ≠ k := fun hh => h hh.symm
  induction e with
  | nil => simp [setEnvVal, lookupEnv, hxk]
  | cons hd t ih =>
    obtain ⟨y, w⟩ := hd
    by_cases hx : y = x
    · subst hx
      simp [setEnvVal, lookupEnv, hxk]
    · simp [setEnvVal, hx, lookupEnv, ih]

/-- `_update_path_in_path_var` touches only the `PATH` variable. -/
theorem updatePathInPathVar_frame (e : EnvSt) (o n k : String)
    (h : k ≠ "PATH") :
    lookupEnv (updatePathInPathVar e o n) k = lookupEnv e k := by
  unfold updatePathInPathVar
  cases hg : getEnvVariable e "PATH" with
  | none => rfl
  | some cur =>
    by_cases hc : cur = ""
    · simp [hc]
    · simp only [hc, if_false]
      split
      · exact lookupEnv_setEnvVal_ne _ _ _ _ h
      · rfl

/-- One iteration of the variable loop writes only its own variable and
`PATH`. -/
theorem updateEnvVarOne_frame (e : EnvSt) (oE nE v k : String)
    (hkv : k ≠ v) (hkp : k ≠ "PATH") :
    lookupEnv (updateEnvVarOne e oE nE v).1 k = lookupEnv e k := by
  unfold updateEnvVarOne
  cases hg : getEnvVariable e v with
  | none => rfl
  | some cur =>
    by_cases hc : cur = ""
    · simp [hc]
    · simp only [hc, if_false]
      by_cases hs : strStartsWith (normpath cur) (normpath oE) = true
      · simp only [hs, if_true]
        rw [updatePathInPathVar_frame _ _ _ _ hkp]
        exact lookupEnv_setEnvVal_ne _ _ _ _ hkv
      · simp [hs]

/-- One iteration of the variable loop, read back at its own variable: the
stored value becomes exactly the prefix-substitution rewrite of the old
value (an unset or empty variable stays put). -/
theorem updateEnvVarOne_self (e : EnvSt) (oE nE v : String)
    (hvp : v ≠ "PATH") :
    lookupEnv (updateEnvVarOne e oE nE v).1 v
      = (lookupEnv e v).map
          (fun cur => if cur = "" then cur else expectedVarRewrite oE nE cur) := by
  unfold updateEnvVarOne
  cases hg : getEnvVariable e v with
  | none =>
    have hg' : lookupEnv e v = none := hg
    simp [hg']
  | some cur =>
    have hg' : lookupEnv e v = some cur := hg
    by_cases hc : cur = ""
    · simp [hc, hg', hg]
    · simp only [hc, if_false]
      by_cases hs : strStartsWith (normpath cur) (normpath oE) = true
      · simp only [hs, if_true]
        rw [updatePathInPathVar_frame _ _ _ _ hvp]
        rw [show (setEnvVariable e v
            (if normpath cur = normpath oE then nE
             else match relpath (normpath cur) (normpath oE) with
               | some r => joinPath nE r
               | none => nE)).1
          = setEnvVal e v
            (if normpath cur = normpath oE then nE
             else match relpath (normpath cur) (normpath oE) with
               | some r => joinPath nE r
               | none => nE) from rfl]
        rw [lookupEnv_setEnvVal_eq]
        simp [hg', expectedVarRewrite, hs, hc]
      · simp [hs, hg', expectedVarRewrite, hc]

theorem updateEnvVars_peel (e : EnvSt) (oE nE v : String) (vs : List String) :
    (updateEnvVars e oE nE (v :: vs)).1
      = (updateEnvVars (updateEnvVarOne e oE nE v).1 oE nE vs).1 := rfl

theorem updateEnvVars_nil (e : EnvSt) (oE nE : String) :
    (updateEnvVars e oE nE []).1 = e := rfl

/-- The variable loop never touches variables outside its list (other than
`PATH`). -/
theorem updateEnvVars_frame (vs : List String) (e : EnvSt) (oE nE k : String)
    (hk : k ∉ vs) (hkp : k ≠ "PATH") :
    lookupEnv (updateEnvVars e oE nE vs).1 k = lookupEnv e k := by
  induction vs generalizing e with
  | nil => rfl
  | cons v rest ih =>
    rw [updateEnvVars_peel]
    rw [ih _ (fun hm => hk (List.mem_cons_of_mem v hm))]
    exact updateEnvVarOne_frame _ _ _ _ _ (fun hv => hk (hv ▸ List.mem_cons_self v rest)) hkp

theorem updateEnvTable_peel (e : EnvSt) (o n nm f : String) (vs : List String)
    (rest : List (String × List String))
    (hf : lookupAssoc envFolderMap nm = some f) :
    (updateEnvTable e o n ((nm, vs) :: rest)).1
      = (updateEnvTable
          (updateEnvVars e (joinPath (joinPath o "apps") f)
            (joinPath (joinPath n "apps") f) vs).1 o n rest).1 := by
  conv_lhs => rw [updateEnvTable, hf]

/-- The table loop never touches variables outside the table (other than
`PATH`). -/
theorem updateEnvTable_frame (table : List (String × List String)) (e : EnvSt)
    (o n k : String) (hk : ∀ p ∈ table, k ∉ p.2) (hkp : k ≠ "PATH") :
    lookupEnv (updateEnvTable e o n table).1 k = lookupEnv e k := by
  induction table generalizing e with
  | nil => rfl
  | cons hd rest ih =>
    obtain ⟨nm, vs⟩ := hd
    cases hf : lookupAssoc envFolderMap nm with
    | none =>
      unfold updateEnvTable
      rw [hf]
      exact ih _ (fun p hp => hk p (List.mem_cons_of_mem _ hp))
    | some f =>
      rw [updateEnvTable_peel _ _ _ _ _ _ _ hf]
      rw [ih _ (fun p hp => hk p (List.mem_cons_of_mem _ hp))]
      exact updateEnvVars_frame _ _ _ _ _ (hk (nm, vs) (List.mem_cons_self _ _)) hkp

theorem updateEnvTable_nil (e : EnvSt) (o n : String) :
    (updateEnvTable e o n []).1 = e := rfl

/-- Reading back the variable `k` after the variable loop ran over a list
in which `k` occurs exactly once: the stored value is the
prefix-substitution rewrite of the old value. -/
theorem lookupEnv_updateEnvVars_split (vpre vpost : List String) (env : EnvSt)
    (oE nE k : String) (hvpre : k ∉ vpre) (hvpost : k ∉ vpost)
    (hkp : k ≠ "PATH") :
    lookupEnv (updateEnvVars env oE nE (vpre ++ k :: vpost)).1 k
      = (lookupEnv env k).map
          (fun cur => if cur = "" then cur else expectedVarRewrite oE nE cur) := by
  induction vpre generalizing env with
  | nil =>
    rw [List.nil_append, updateEnvVars_peel]
    rw [updateEnvVars_frame _ _ _ _ _ hvpost hkp]
    exact updateEnvVarOne_self _ _ _ _ hkp
  | cons v rest ih =>
    have hkv : k ≠ v := fun hh => hvpre (hh ▸ List.mem_cons_self v rest)
    rw [List.cons_append, updateEnvVars_peel]
    rw [ih _ (fun hm => hvpre (List.mem_cons_of_mem v hm))]
    rw [updateEnvVarOne_frame _ _ _ _ _ hkv hkp]

/-- Reading back the variable `k` after the table loop, when `k` occurs in
exactly one table entry (and exactly once there): the stored value is the
prefix-substitution rewrite against `oldRoot\apps\<folder>` for that
entry's folder. -/
theorem lookupEnv_updateEnvTable_split (pre post : List (String × List String))
    (nm folder : String) (vpre vpost : List String) (env : EnvSt)
    (o n k : String)
    (hf : lookupAssoc envFolderMap nm = some folder)
    (hpre : ∀ p ∈ pre, k ∉ p.2) (hpost : ∀ p ∈ post, k ∉ p.2)
    (hvpre : k ∉ vpre) (hvpost : k ∉ vpost) (hkp : k ≠ "PATH") :
    lookupEnv (updateEnvTable env o n
        (pre ++ (nm, vpre ++ k :: vpost) :: post)).1 k
      = (lookupEnv env k).map
          (fun cur => if cur = "" then cur
            else expectedVarRewrite (joinPath (joinPath o "apps") folder)
                (joinPath (joinPath n "apps") folder) cur) := by
  induction pre generalizing env with
  | nil =>
    rw [List.nil_append]
    rw [updateEnvTable_peel _ _ _ _ _ _ _ hf]
    rw [updateEnvTable_frame _ _ _ _ _ hpost hkp]
    exact lookupEnv_updateEnvVars_split _ _ _ _ _ _ hvpre hvpost hkp
  | cons hd rest ih =>
    obtain ⟨nm', vs'⟩ := hd
    have hk' : k ∉ vs' := hpre (nm', vs') (List.mem_cons_self _ _)
    rw [List.cons_append]
    cases hf' : lookupAssoc envFolderMap nm' with
    | none =>
      conv_lhs => rw [updateEnvTable, hf']
      exact ih _ (fun p hp => hpre p (List.mem_cons_of_mem _ hp))
    | some f' =>
      rw [updateEnvTable_peel _ _ _ _ _ _ _ hf']
      rw [ih _ (fun p hp => hpre p (List.mem_cons_of_mem _ hp))]
      rw [updateEnvVars_frame _ _ _ _ _ hk' hkp]

/-- The `(bool, str)` result of `_update_environment_variables` is
constantly a success: every store operation in its body catches its own
exceptions, so the abort branch of the coordinator (lines 169-172) is
unreachable. -/
theorem updateEnvironmentVariables_ok (e : EnvSt) (o n : String) :
    (updateEnvironmentVariables e o n).2.1 = true := rfl

/-- C4 amended: for every mapped environment variable that is currently set
to a non-empty value: if its normalised value *has the normalised
`oldRoot\apps\<folder>` as a string prefix* it is rewritten — wholesale on
exact match, otherwise by relative-path substitution preserving everything
below the prefix, falling back to the bare new path when the relative
computation is impossible (cross-drive) — and a variable whose normalised
value does not have the old path as a string prefix is left unchanged.
(The string-prefix test is what the code performs; it covers exactly the
spec's "equal to or nested under" cases plus sibling paths whose final
component extends `<folder>`.) -/
theorem updateEnvironmentVariables_mapped (env : EnvSt)
    (old new folder varName : String)
    (hfv : (folder, varName) ∈ mappedVarFolders) :
    lookupEnv (updateEnvironmentVariables env old new).1 varName
      = (lookupEnv env varName).map
          (fun cur => if cur = "" then cur
            else expectedVarRewrite (joinPath (joinPath old "apps") folder)
                (joinPath (joinPath new "apps") folder) cur) ∧
      (∀ cur, strStartsWith (normpath cur)
          (normpath (joinPath (joinPath old "apps") folder)) = false →
        expectedVarRewrite (joinPath (joinPath old "apps") folder)
            (joinPath (joinPath new "apps") folder) cur = cur) := by
  constructor
  · have hchg : (updateEnvironmentVariables env old new).1
        = (updateEnvTable env old new envVarMap).1 := rfl
    simp only [mappedVarFolders, List.mem_cons, List.not_mem_nil, or_false,
      List.mem_singleton] at hfv
    rcases hfv with h | h | h | h | h | h
    all_goals (rw [Prod.mk.injEq] at h; obtain ⟨rfl, rfl⟩ := h; rw [hchg])
    · rw [show envVarMap
          = [] ++ ("JDK", [] ++ "JAVA_HOME" :: []) ::
              [("Node.js", ["NODE_HOME"]), ("Maven", ["MAVEN_HOME", "M2_HOME"]),
               ("Redis", ["REDIS_HOME"]), ("Python", ["PYTHON_HOME"])] from rfl]
      exact lookupEnv_updateEnvTable_split _ _ _ _ _ _ _ _ _ _ rfl
        (by decide) (by decide) (by decide) (by decide) (by decide)
    · rw [show envVarMap
          = [("JDK", ["JAVA_HOME"])] ++ ("Node.js", [] ++ "NODE_HOME" :: []) ::
              [("Maven", ["MAVEN_HOME", "M2_HOME"]),
               ("Redis", ["REDIS_HOME"]), ("Python", ["PYTHON_HOME"])] from rfl]
      exact lookupEnv_updateEnvTable_split _ _ _ _ _ _ _ _ _ _ rfl
        (by decide) (by decide) (by decide) (by decide) (by decide)
    · rw [show envVarMap
          = [("JDK", ["JAVA_HOME"]), ("Node.js", ["NODE_HOME"])]
              ++ ("Maven", [] ++ "MAVEN_HOME" :: ["M2_HOME"]) ::
              [("Redis", ["REDIS_HOME"]), ("Python", ["PYTHON_HOME"])] from rfl]
      exact lookupEnv_updateEnvTable_split _ _ _ _ _ _ _ _ _ _ rfl
        (by decide) (by decide) (by decide) (by decide) (by decide)
    · rw [show envVarMap
          = [("JDK", ["JAVA_HOME"]), ("Node.js", ["NODE_HOME"])]
              ++ ("Maven", ["MAVEN_HOME"] ++ "M2_HOME" :: []) ::
              [("Redis", ["REDIS_HOME"]), ("Python", ["PYTHON_HOME"])] from rfl]
      exact lookupEnv_updateEnvTable_split _ _ _ _ _ _ _ _ _ _ rfl
        (by decide) (by decide) (by decide) (by decide) (by decide)
    · rw [show envVarMap
          = [("JDK", ["JAVA_HOME"]), ("Node.js", ["NODE_HOME"]),
             ("Maven", ["MAVEN_HOME", "M2_HOME"])]
              ++ ("Redis", [] ++ "REDIS_HOME" :: []) ::
              [("Python", ["PYTHON_HOME"])] from rfl]
      exact lookupEnv_updateEnvTable_split _ _ _ _ _ _ _ _ _ _ rfl
        (by decide) (by decide) (by decide) (by decide) (by decide)
    · rw [show envVarMap
          = [("JDK", ["JAVA_HOME"]), ("Node.js", ["NODE_HOME"]),
             ("Maven", ["MAVEN_HOME", "M2_HOME"]), ("Redis", ["REDIS_HOME"])]
              ++ ("Python", [] ++ "PYTHON_HOME" :: []) :: [] from rfl]
      exact lookupEnv_updateEnvTable_split _ _ _ _ _ _ _ _ _ _ rfl
        (by decide) (by decide) (by decide) (by decide) (by decide)
  · intro cur h
    simp [expectedVarRewrite, h]

/-- C4 counterexample: `JAVA_HOME = C:\old\apps\jdk2` is neither equal to
nor nested under `C:\old\apps\jdk`, yet the rewrite changes it (to
`C:\new\apps\jdk\..\jdk2`) because the code tests a string
`startswith` on the normalised value. -/
theorem env_var_rewritten_when_not_nested :
    isNestedUnder "C:\\old\\apps\\jdk2" "C:\\old\\apps\\jdk" = false ∧
      "C:\\old\\apps\\jdk2" ≠ "C:\\old\\apps\\jdk" ∧
      lookupEnv (updateEnvironmentVariables
          [("JAVA_HOME", "C:\\old\\apps\\jdk2")] "C:\\old" "C:\\new").1
          "JAVA_HOME"
        = some "C:\\new\\apps\\jdk\\..\\jdk2" :=
  ⟨rfl, by decide, rfl⟩

theorem updateEnvironmentVariables_mapped_witness :
    (("jdk", "JAVA_HOME") ∈ mappedVarFolders) ∧
      lookupEnv (updateEnvironmentVariables
          [("JAVA_HOME", "C:\\old\\apps\\jdk\\bin")] "C:\\old" "C:\\new").1
          "JAVA_HOME"
        = (lookupEnv [("JAVA_HOME", "C:\\old\\apps\\jdk\\bin")] "JAVA_HOME").map
            (fun cur => if cur = "" then cur
              else expectedVarRewrite (joinPath (joinPath "C:\\old" "apps") "jdk")
                  (joinPath (joinPath "C:\\new" "apps") "jdk") cur) :=
  ⟨by decide,
   (updateEnvironmentVariables_mapped
      [("JAVA_HOME", "C:\\old\\apps\\jdk\\bin")] "C:\\old" "C:\\new"
      "jdk" "JAVA_HOME" (by decide)).1⟩

/-! ## Filesystem frame lemmas

`setNode`/`removeNode` at a path `p` leave every path that neither extends
nor is extended by `p` untouched; hence the forced removal of the old root
does not disturb anything outside it. -/

theorem lookupE_insertE_self (es : List (String × FsNode)) (x : String)
    (n : FsNode) : lookupE (insertE es x n) x = some n := by
  induction es with
  | nil => simp [insertE, lookupE]
  | cons hd rest ih =>
    obtain ⟨y, c⟩ := hd
    by_cases hx : y = x
    · simp [insertE, hx, lookupE]
    · simp [insertE, hx, lookupE, ih]

theorem lookupE_insertE_ne (es : List (String × FsNode)) (x y : String)
    (n : FsNode) (h : y ≠ x) :
    lookupE (insertE es x n) y = lookupE es y := by
  have hxy : x ≠ y := fun hh => h hh.symm
  induction es with
  | nil => simp [insertE, lookupE, hxy]
  | cons hd rest ih =>
    obtain ⟨z, c⟩ := hd
    by_cases hz : z = x
    · subst hz
      simp [insertE, lookupE, hxy]
    · simp [insertE, hz, lookupE, ih]

theorem lookupE_eraseE_ne (es : List (String × FsNode)) (x y : String)
    (h : y ≠ x) : lookupE (eraseE es x) y = lookupE es y := by
  have hxy : x ≠ y := fun hh => h hh.symm
  induction es with
  | nil => simp [eraseE, lookupE]
  | cons hd rest ih =>
    obtain ⟨z, c⟩ := hd
    by_cases hz : z = x
    · subst hz
      simp [eraseE, lookupE, hxy]
    · simp [eraseE, hz, lookupE, ih]

theorem getNode_setNode_disjoint (p : Comps) (fs : FsNode) (q : Comps)
    (n : FsNode) (h1 : compsPre p q = false) (h2 : compsPre q p = false) :
    getNode (setNode fs p n) q = getNode fs q := by
  induction p generalizing fs q with
  | nil => simp [compsPre] at h1
  | cons x xs ih =>
    cases q with
    | nil => simp [compsPre] at h2
    | cons y ys =>
      by_cases hxy : x = y
      · subst hxy
        have h1' : compsPre xs ys = false := by simpa [compsPre] using h1
        have h2' : compsPre ys xs = false := by simpa [compsPre] using h2
        cases fs with
        | file l u c =>
          show getNode (.dir [(x, setNode (.dir []) xs n)]) (x :: ys)
            = getNode (.file l u c) (x :: ys)
          have hl : lookupE [(x, setNode (.dir []) xs n)] x
              = some (setNode (.dir []) xs n) := by simp [lookupE]
          simp only [getNode, hl]
          rw [ih _ _ h1' h2']
          cases ys with
          | nil => simp [compsPre] at h2'
          | cons z zs => simp [getNode, lookupE]
        | dir es =>
          show getNode (.dir (insertE es x
              (setNode ((lookupE es x).getD (.dir [])) xs n))) (x :: ys)
            = getNode (.dir es) (x :: ys)
          simp only [getNode, lookupE_insertE_self]
          rw [ih _ _ h1' h2']
          cases hl : lookupE es x with
          | some c => simp [Option.getD]
          | none =>
            simp only [Option.getD]
            cases ys with
            | nil => simp [compsPre] at h2'
            | cons z zs => simp [getNode, lookupE]
      · have hyx : y ≠ x := fun hh => hxy hh.symm
        cases fs with
        | file l u c =>
          show getNode (.dir [(x, setNode (.dir []) xs n)]) (y :: ys)
            = getNode (.file l u c) (y :: ys)
          simp [getNode, lookupE, hxy]
        | dir es =>
          show getNode (.dir (insertE es x
              (setNode ((lookupE es x).getD (.dir [])) xs n))) (y :: ys)
            = getNode (.dir es) (y :: ys)
          simp only [getNode]
          rw [lookupE_insertE_ne _ _ _ _ hyx]

theorem getNode_removeNode_disjoint (p : Comps) (fs : FsNode) (q : Comps)
    (h1 : compsPre p q = false) (h2 : compsPre q p = false) :
    getNode (removeNode fs p) q = getNode fs q := by
  induction p generalizing fs q with
  | nil => simp [compsPre] at h1
  | cons x xs ih =>
    cases q with
    | nil => simp [compsPre] at h2
    | cons y ys =>
      cases fs with
      | file l u c => rfl
      | dir es =>
        by_cases hxy : x = y
        · subst hxy
          have h1' : compsPre xs ys = false := by simpa [compsPre] using h1
          have h2' : compsPre ys xs = false := by simpa [compsPre] using h2
          cases xs with
          | nil => simp [compsPre] at h1'
          | cons w ws =>
            show getNode (match lookupE es x with
                | none => FsNode.dir es
                | some c => .dir (insertE es x (removeNode c (w :: ws))))
                (x :: ys) = getNode (.dir es) (x :: ys)
            cases hl : lookupE es x with
            | none => rfl
            | some c =>
              simp only [getNode, lookupE_insertE_self, hl]
              exact ih _ _ h1' h2'
        · have hyx : y ≠ x := fun hh => hxy hh.symm
          cases xs with
          | nil =>
            show getNode (.dir (eraseE es x)) (y :: ys)
              = getNode (.dir es) (y :: ys)
            simp only [getNode]
            rw [lookupE_eraseE_ne _ _ _ hyx]
          | cons w ws =>
            show getNode (match lookupE es x with
                | none => FsNode.dir es
                | some c => .dir (insertE es x (removeNode c (w :: ws))))
                (y :: ys) = getNode (.dir es) (y :: ys)
            cases hl : lookupE es x with
            | none => rfl
            | some c =>
              simp only [getNode]
              rw [lookupE_insertE_ne _ _ _ _ hyx]

/-- `_force_remove_directory` touches nothing outside the given path. -/
theorem forceRemoveDirectory_frame (fs : FsNode) (path : String) (q : Comps)
    (h1 : compsPre (splitPath path) q = false)
    (h2 : compsPre q (splitPath path) = false) :
    getNode (forceRemoveDirectory fs path).1 q = getNode fs q := by
  unfold forceRemoveDirectory
  cases hg : getNode fs (splitPath path) with
  | none => rfl
  | some n =>
    show getNode (match reapNode n with
        | none => (removeNode fs (splitPath path), true)
        | some n' => (setNode fs (splitPath path) n', false)).1 q
      = getNode fs q
    cases hr : reapNode n with
    | none => exact getNode_removeNode_disjoint _ _ _ h1 h2
    | some n' => exact getNode_setNode_disjoint _ _ _ _ h1 h2

/-- The triple removal attempt of `_migrate_all_files` touches nothing
outside the old root. -/
theorem forceRemoveTriple_frame (fs : FsNode) (path : String) (q : Comps)
    (h1 : compsPre (splitPath path) q = false)
    (h2 : compsPre q (splitPath path) = false) :
    getNode (forceRemoveTriple fs path).1 q = getNode fs q := by
  unfold forceRemoveTriple
  by_cases ha : (forceRemoveDirectory fs path).2 = true
  · rw [if_pos ha]
    exact forceRemoveDirectory_frame _ _ _ h1 h2
  · rw [if_neg ha]
    by_cases hb :
        (forceRemoveDirectory (forceRemoveDirectory fs path).1 path).2 = true
    · rw [if_pos hb]
      rw [forceRemoveDirectory_frame _ _ _ h1 h2]
      exact forceRemoveDirectory_frame _ _ _ h1 h2
    · rw [if_neg hb]
      rw [forceRemoveDirectory_frame _ _ _ h1 h2,
        forceRemoveDirectory_frame _ _ _ h1 h2]
      exact forceRemoveDirectory_frame _ _ _ h1 h2

/-! ## C2 — reference rewriting is best-effort -/

/-- With a failing history write, `_update_history_paths` leaves the
persisted ledger untouched and performs no write. -/
theorem updateHistoryPaths_writeFails (hist : List HRecord) (old new : String) :
    updateHistoryPaths hist true old new = (hist, 0) := by
  unfold updateHistoryPaths
  cases rewriteRecords old new hist with
  | none => rfl
  | some pr =>
    obtain ⟨rs, updated⟩ := pr
    cases updated
    all_goals rfl

/-- `cwdCleanup` touches only the filesystem. -/
theorem cwdCleanup_fields (σ : Sys) :
    (cwdCleanup σ).managerFolderPath = σ.managerFolderPath ∧
      (cwdCleanup σ).history = σ.history ∧
      (cwdCleanup σ).env = σ.env := by
  unfold cwdCleanup
  split
  · exact ⟨rfl, rfl, rfl⟩
  · exact ⟨rfl, rfl, rfl⟩

/-- Every branch of the reclamation stage returns overall success with one
of the four outcome messages, and leaves ledger root and history alone. -/
theorem reclaimStage_spec (σ : Sys) (old : String) :
    (reclaimStage σ old).2.1 = true ∧
      (reclaimStage σ old).1.managerFolderPath = σ.managerFolderPath ∧
      (reclaimStage σ old).1.history = σ.history ∧
      ((reclaimStage σ old).2.2 = .successOldRemoved ∨
        (reclaimStage σ old).2.2 = .successScheduled ∨
        (reclaimStage σ old).2.2 = .successAdminRemoved ∨
        (reclaimStage σ old).2.2 = .successResidual) := by
  unfold reclaimStage
  split
  · exact ⟨rfl, rfl, rfl, Or.inl rfl⟩
  · split
    · exact ⟨rfl, rfl, rfl, Or.inr (Or.inl rfl)⟩
    · split
      · exact ⟨rfl, rfl, rfl, Or.inr (Or.inr (Or.inl rfl))⟩
      · exact ⟨rfl, rfl, rfl, Or.inr (Or.inr (Or.inr rfl))⟩

theorem reclaim_after_cleanup_spec (σ : Sys) (old : String) :
    (reclaimStage (cwdCleanup σ) old).2.1 = true ∧
      (reclaimStage (cwdCleanup σ) old).1.managerFolderPath
        = σ.managerFolderPath ∧
      (reclaimStage (cwdCleanup σ) old).1.history = σ.history ∧
      ((reclaimStage (cwdCleanup σ) old).2.2 = .successOldRemoved ∨
        (reclaimStage (cwdCleanup σ) old).2.2 = .successScheduled ∨
        (reclaimStage (cwdCleanup σ) old).2.2 = .successAdminRemoved ∨
        (reclaimStage (cwdCleanup σ) old).2.2 = .successResidual) := by
  obtain ⟨f1, f2, f3⟩ := cwdCleanup_fields σ
  obtain ⟨r1, r2, r3, r4⟩ := reclaimStage_spec (cwdCleanup σ) old
  exact ⟨r1, by rw [r2, f1], by rw [r3, f2], r4⟩

/-- Everything after a successful file migration runs to a success result:
the environment-rewrite abort branch is unreachable, a history-write
failure leaves the ledger as it was without stopping the run, the new root
is persisted, and the old-root reclamation produces one of its four
outcomes. -/
theorem relocateTail_spec (σ : Sys) (old p : String) :
    (relocateTail σ old p).2.1 = true ∧
      (relocateTail σ old p).1.managerFolderPath = p ∧
      (σ.historyWriteFails = true →
        (relocateTail σ old p).1.history = σ.history) ∧
      ((relocateTail σ old p).2.2 = .successOldRemoved ∨
        (relocateTail σ old p).2.2 = .successScheduled ∨
        (relocateTail σ old p).2.2 = .successAdminRemoved ∨
        (relocateTail σ old p).2.2 = .successResidual) := by
  have hne : ¬ ((updateEnvironmentVariables σ.env old p).2.1 = false) := by
    simp [updateEnvironmentVariables_ok]
  refine ⟨?_, ?_, ?_, ?_⟩
  · simp only [relocateTail]
    rw [if_neg hne]
    exact (reclaim_after_cleanup_spec _ old).1
  · simp only [relocateTail]
    rw [if_neg hne]
    exact (reclaim_after_cleanup_spec _ old).2.1
  · intro hwf
    simp only [relocateTail]
    rw [if_neg hne]
    rw [(reclaim_after_cleanup_spec _ old).2.2.1]
    show (updateHistoryPaths σ.history σ.historyWriteFails old p).1 = σ.history
    rw [hwf, updateHistoryPaths_writeFails]
  · simp only [relocateTail]
    rw [if_neg hne]
    exact (reclaim_after_cleanup_spec _ old).2.2.2

/-- C2: for every relocation that reaches the reference-rewriting phase
(file migration succeeded), neither rewriting step can abort the
relocation: the environment step reports success on every store (its abort
branch is dead code), and a failing history write is absorbed — the
coordinator still persists the new root and proceeds to reclaim the old
root, returning one of the four reclamation outcomes with overall
success. -/
theorem relocation_reference_rewrite_best_effort (fuel : Nat) (σ : Sys)
    (path : String)
    (hnem : path ≠ "")
    (hch : normpath (normpath path) ≠ normpath σ.managerFolderPath)
    (hex : existsFs (prepareDirs σ (normpath path)).fs
      (splitPath σ.managerFolderPath) = true)
    (hop : σ.managerFolderPath ≠ normpath path)
    (hok : (migrateAllFiles fuel (prepareDirs σ (normpath path)).fs
      σ.managerFolderPath (normpath path)).ok = true)
    (hwf : σ.historyWriteFails = true) :
    (∀ e o n, (updateEnvironmentVariables e o n).2.1 = true) ∧
      (setManagerFolderPath fuel σ path true).2.1 = true ∧
      (setManagerFolderPath fuel σ path true).1.managerFolderPath
        = normpath path ∧
      (setManagerFolderPath fuel σ path true).1.history = σ.history ∧
      ((setManagerFolderPath fuel σ path true).2.2 = .successOldRemoved ∨
        (setManagerFolderPath fuel σ path true).2.2 = .successScheduled ∨
        (setManagerFolderPath fuel σ path true).2.2 = .successAdminRemoved ∨
        (setManagerFolderPath fuel σ path true).2.2 = .successResidual) := by
  have heq : setManagerFolderPath fuel σ path true
      = relocateTail { prepareDirs σ (normpath path) with
            fs := (migrateAllFiles fuel (prepareDirs σ (normpath path)).fs
              σ.managerFolderPath (normpath path)).fs }
          σ.managerFolderPath (normpath path) := by
    simp only [setManagerFolderPath]
    rw [if_neg hnem, if_neg hch, if_pos ⟨trivial, hex, hop⟩, if_pos hok]
  obtain ⟨h1, h2, h3, h4⟩ := relocateTail_spec
    { prepareDirs σ (normpath path) with
        fs := (migrateAllFiles fuel (prepareDirs σ (normpath path)).fs
          σ.managerFolderPath (normpath path)).fs }
    σ.managerFolderPath (normpath path)
  refine ⟨fun e o n => updateEnvironmentVariables_ok e o n, ?_, ?_, ?_, ?_⟩
  · rw [heq]
    exact h1
  · rw [heq]
    exact h2
  · rw [heq]
    exact h3 hwf
  · rw [heq]
    exact h4

theorem relocation_reference_rewrite_best_effort_witness :
    (migrateAllFiles 64 (prepareDirs sysScen2 (normpath "C:\\new")).fs
        sysScen2.managerFolderPath (normpath "C:\\new")).ok = true ∧
      sysScen2.historyWriteFails = true ∧
      ((setManagerFolderPath 64 sysScen2 "C:\\new" true).2.1 = true ∧
        (setManagerFolderPath 64 sysScen2 "C:\\new" true).1.managerFolderPath
          = normpath "C:\\new" ∧
        (setManagerFolderPath 64 sysScen2 "C:\\new" true).1.history
          = sysScen2.history) :=
  ⟨rfl, rfl,
   (relocation_reference_rewrite_best_effort 64 sysScen2 "C:\\new"
      (by decide) (by decide) rfl (by decide) rfl rfl).2.1,
   (relocation_reference_rewrite_best_effort 64 sysScen2 "C:\\new"
      (by decide) (by decide) rfl (by decide) rfl rfl).2.2.1,
   (relocation_reference_rewrite_best_effort 64 sysScen2 "C:\\new"
      (by decide) (by decide) rfl (by decide) rfl rfl).2.2.2.1⟩

/-! ## C1 — a recorded migration failure aborts before reference
rewriting -/

/-- C1 amended: when an entry *recorded by the migration summary* (a
top-level entry of a merged subdirectory, or a whole-subdirectory move) is
classified `Failed`, the overall result is `Failed`, the relocation aborts
before any environment-variable or history rewriting and before the ledger
changes, and the filesystem outside the old root is exactly what the copy
phase left (files already copied to the destination remain in place).
However — unlike the original claim — the removal of the *entire old root*
has already been attempted inside the migration phase (lines 296-303 run
before the failure check), and `Failed` classifications of entries nested
inside merged directories are discarded (line 346), so only recorded
failures trigger the abort. -/
theorem relocation_recorded_failure_aborts (fuel : Nat) (σ : Sys)
    (path : String)
    (hnem : path ≠ "")
    (hch : normpath (normpath path) ≠ normpath σ.managerFolderPath)
    (hex : existsFs (prepareDirs σ (normpath path)).fs
      (splitPath σ.managerFolderPath) = true)
    (hop : σ.managerFolderPath ≠ normpath path)
    (hfail : (migrateAllFiles fuel (prepareDirs σ (normpath path)).fs
      σ.managerFolderPath (normpath path)).failedFiles ≠ []) :
    setManagerFolderPath fuel σ path true
        = ({ prepareDirs σ (normpath path) with
              fs := (migrateAllFiles fuel (prepareDirs σ (normpath path)).fs
                σ.managerFolderPath (normpath path)).fs },
           false, .migrationFailed) ∧
      (setManagerFolderPath fuel σ path true).1.env = σ.env ∧
      (setManagerFolderPath fuel σ path true).1.history = σ.history ∧
      (setManagerFolderPath fuel σ path true).1.historyWrites
        = σ.historyWrites ∧
      (setManagerFolderPath fuel σ path true).1.managerFolderPath
        = σ.managerFolderPath ∧
      (∀ q : Comps, compsPre (splitPath σ.managerFolderPath) q = false →
        compsPre q (splitPath σ.managerFolderPath) = false →
        getNode (migrateAllFiles fuel (prepareDirs σ (normpath path)).fs
            σ.managerFolderPath (normpath path)).fs q
          = getNode (migrateDirsPhase fuel (prepareDirs σ (normpath path)).fs
              (splitPath σ.managerFolderPath) (splitPath (normpath path))
              dirsToMigrate).1 q) := by
  have hoknot : ¬ ((migrateAllFiles fuel (prepareDirs σ (normpath path)).fs
      σ.managerFolderPath (normpath path)).ok = true) := by
    intro h
    exact hfail (List.isEmpty_iff.mp h)
  have heq : setManagerFolderPath fuel σ path true
      = ({ prepareDirs σ (normpath path) with
            fs := (migrateAllFiles fuel (prepareDirs σ (normpath path)).fs
              σ.managerFolderPath (normpath path)).fs },
         false, .migrationFailed) := by
    simp only [setManagerFolderPath]
    rw [if_neg hnem, if_neg hch, if_pos ⟨trivial, hex, hop⟩, if_neg hoknot]
  refine ⟨heq, ?_, ?_, ?_, ?_, ?_⟩
  · rw [heq]
    rfl
  · rw [heq]
    rfl
  · rw [heq]
    rfl
  · rw [heq]
    rfl
  · intro q hq1 hq2
    exact forceRemoveTriple_frame _ _ _ hq1 hq2


theorem relocation_recorded_failure_aborts_witness :
    (migrateAllFiles 64 (prepareDirs sysScen1W (normpath "C:\\new")).fs
        sysScen1W.managerFolderPath (normpath "C:\\new")).failedFiles
      = [["C:", "old", "downloads", "f.txt"]] ∧
      (setManagerFolderPath 64 sysScen1W "C:\\new" true
        = ({ prepareDirs sysScen1W (normpath "C:\\new") with
              fs := (migrateAllFiles 64
                (prepareDirs sysScen1W (normpath "C:\\new")).fs
                sysScen1W.managerFolderPath (normpath "C:\\new")).fs },
           false, .migrationFailed)) :=
  ⟨rfl,
   (relocation_recorded_failure_aborts 64 sysScen1W "C:\\new"
      (by decide) (by decide) rfl (by decide) (by decide)).1⟩

/-- C1 counterexample: with the old root holding only the unreadable
`downloads\f.txt` and a fresh destination, the first attempt's `copytree`
copies nothing and raises; the retry merges, the inner call classifies
`f.txt` as `Failed` — but that classification is discarded (line 346), the
deletion phase then deletes the never-copied `f.txt`, and the relocation
reports overall *success* with the file gone from both roots.
`fsScen1Mid` is the filesystem at the moment the merge pass reaches
`f.txt`. -/
theorem failed_entry_does_not_fail_relocation :
    (migrateItem 60 fsScen1Mid ["C:", "old", "downloads", "f.txt"]
        ["C:", "new", "downloads", "f.txt"] 1).2 = .failed ∧
      (setManagerFolderPath 64 sysScen1 "C:\\new" true).2.1 = true ∧
      getNode (setManagerFolderPath 64 sysScen1 "C:\\new" true).1.fs
          ["C:", "old", "downloads", "f.txt"] = none ∧
      getNode (setManagerFolderPath 64 sysScen1 "C:\\new" true).1.fs
          ["C:", "new", "downloads", "f.txt"] = none :=
  ⟨rfl, rfl, rfl, rfl⟩

end DevEnvRoot
